import Mathlib

/-!
Shallow embedding of the stock-analysis repository (src/stock_analyzer.py and
src/stock_data.py) for verification of its specification.

Modelling conventions:
* Python/pandas floats are modelled as rationals (ℚ); `NaN`-able numeric
  columns are `Option ℚ` with `none` playing the role of `NaN`
  (comparisons against `none` are false, as in pandas).
* A pandas DataFrame is a `List StockRecord`; column assignments are
  modelled row-wise.
* `round(·, 2)` / `.round(2)` is round-half-to-even at two decimals.
* `Series.rank(pct=True)` is the pandas default average rank divided by the
  number of rows.
-/

namespace StockAnalysis

/-- Round half to even (the rounding used by Python's `round` and numpy). -/
def roundHalfEven (x : ℚ) : ℤ :=
  let f := ⌊x⌋
  let r := x - f
  if r < 1/2 then f
  else if 1/2 < r then f + 1
  else if f % 2 = 0 then f else f + 1

/-- `round(x, 2)`: round to two decimal places, half to even. -/
def round2 (x : ℚ) : ℚ := (roundHalfEven (100 * x) : ℚ) / 100

/-- One row of the dataset: the fields built by
`get_stock_details_yfinance` plus the score columns added by
`calculate_overall_score` (absent, i.e. `none`, before scoring). -/
structure StockRecord where
  symbol : String
  companyName : String
  currentPrice : ℚ
  volume : ℤ
  marketCap : ℚ
  pe_ratio : Option ℚ
  pb_ratio : Option ℚ
  roe : Option ℚ
  profit_margin : Option ℚ
  momentum_30d : Option ℚ
  sector : String
  industry : String
  pe_score : Option ℤ := none
  volume_score : Option ℤ := none
  momentum_score : Option ℤ := none
  profit_score : Option ℤ := none
  overall_score : Option ℚ := none
deriving DecidableEq, Repr

/-- The weight configuration stored in `StockAnalyzer.__init__` as
`self.scoring_weights`. -/
structure ScoringWeights where
  pe_score : ℚ
  volume_score : ℚ
  momentum_score : ℚ
  profit_score : ℚ
deriving DecidableEq, Repr

/-- `self.scoring_weights = {'pe_score': 0.25, 'volume_score': 0.20,
'momentum_score': 0.25, 'profit_score': 0.30}`. -/
def scoring_weights : ScoringWeights :=
  { pe_score := 25/100
    volume_score := 20/100
    momentum_score := 25/100
    profit_score := 30/100 }

/-- Body of the loop in `calculate_pe_score` for one value of
`df['pe_ratio']` (`none` = `NaN`). -/
def peScoreVal (pe? : Option ℚ) : ℤ :=
  match pe? with
  | none => 1
  | some pe =>
    if pe ≤ 0 then 1
    else if pe < 15 then 10
    else if pe < 25 then 8
    else if pe < 35 then 5
    else 2

/-- `StockAnalyzer.calculate_pe_score`. -/
def calculate_pe_score (df : List StockRecord) : List ℤ :=
  df.map (fun r => peScoreVal ( StockRecord.pe_ratio r))

/-- `df['volume'].rank(pct=True)` for the entry `v` of `vols`: pandas
average rank (ties get the mean of their positions) divided by the number
of rows. -/
def pctRank (vols : List ℤ) (v : ℤ) : ℚ :=
  (((vols.countP (fun w => decide (w < v))) +
    (vols.countP (fun w => decide (w ≤ v))) + 1 : ℕ) : ℚ) /
  (((2 * vols.length : ℕ)) : ℚ)

/-- Body of the loop in `calculate_volume_score` bucketing one
percentile. -/
def volumeBucket (p : ℚ) : ℤ :=
  if p ≥ 8/10 then 10
  else if p ≥ 6/10 then 8
  else if p ≥ 4/10 then 6
  else if p ≥ 2/10 then 4
  else 2

/-- `StockAnalyzer.calculate_volume_score`. -/
def calculate_volume_score (df : List StockRecord) : List ℤ :=
  let vols := df.map (fun r => r.volume)
  if vols.sum = 0 then List.replicate df.length 5
  else df.map (fun r => volumeBucket (pctRank vols r.volume))

/-- Body of the loop in `calculate_momentum_score` for one value of
`df['momentum_30d']`. -/
def momentumScoreVal (m? : Option ℚ) : ℤ :=
  match m? with
  | none => 5
  | some m =>
    if m > 20 then 10
    else if m > 10 then 8
    else if m > 0 then 6
    else if m > -10 then 4
    else 2

/-- `StockAnalyzer.calculate_momentum_score`. -/
def calculate_momentum_score (df : List StockRecord) : List ℤ :=
  df.map (fun r => momentumScoreVal r.momentum_30d)

/-- Body of the loop in `calculate_profit_score` for one row. -/
def profitScoreVal (pm? roe? : Option ℚ) : ℤ :=
  let pm0 := pm?.getD 0
  let roe0 := roe?.getD 0
  let pm := if pm0 < 1 then pm0 * 100 else pm0
  let roe := if roe0 < 1 then roe0 * 100 else roe0
  (if pm > 20 then 5
   else if pm > 10 then 4
   else if pm > 5 then 3
   else if pm > 0 then 2
   else 1) +
  (if roe > 20 then 5
   else if roe > 15 then 4
   else if roe > 10 then 3
   else if roe > 5 then 2
   else 1)

/-- `StockAnalyzer.calculate_profit_score`. -/
def calculate_profit_score (df : List StockRecord) : List ℤ :=
  df.map (fun r => profitScoreVal r.profit_margin r.roe)

/-- The volume score of one row of `df` (the sum-is-zero test and the
ranks are taken over the whole dataset, as in the source). -/
def volumeScoreRow (df : List StockRecord) (r : StockRecord) : ℤ :=
  let vols := df.map (fun x => x.volume)
  if vols.sum = 0 then 5 else volumeBucket (pctRank vols r.volume)

/-- One row of the output of `calculate_overall_score`: the four score
columns and the weighted, rounded `overall_score` are written into the
row; all other fields are kept. -/
def scoreRow (df : List StockRecord) (r : StockRecord) : StockRecord :=
  let ps := peScoreVal ( StockRecord.pe_ratio r)
  let vs := volumeScoreRow df r
  let ms := momentumScoreVal r.momentum_30d
  let fs := profitScoreVal r.profit_margin r.roe
  { r with
    pe_score := some ps
    volume_score := some vs
    momentum_score := some ms
    profit_score := some fs
    overall_score := some (round2
      (scoring_weights.pe_score * ps +
       scoring_weights.volume_score * vs +
       scoring_weights.momentum_score * ms +
       scoring_weights.profit_score * fs)) }

/-- `StockAnalyzer.calculate_overall_score` (the column assignments of the
source are modelled row-wise). -/
def calculate_overall_score (df : List StockRecord) : List StockRecord :=
  df.map (fun r => scoreRow df r)

/-- Descending comparison on nullable values, as used by pandas when
sorting a numeric column in descending order (`NaN` sorts last). -/
def descLe (a b : Option ℚ) : Bool :=
  match a, b with
  | some x, some y => decide (y ≤ x)
  | some _, none => true
  | none, some _ => false
  | none, none => true

/-- The columns of a scored dataset, in construction order: the dict keys
of `get_stock_details_yfinance` followed by the five columns added by
`calculate_overall_score`. -/
def stockColumns : List String :=
  ["symbol", "companyName", "currentPrice", "volume", "marketCap",
   "pe_ratio", "pb_ratio", "roe", "profit_margin", "momentum_30d",
   "sector", "industry",
   "pe_score", "volume_score", "momentum_score", "profit_score",
   "overall_score"]

/-- Numeric-column accessor: `some f` when the named column has a numeric
dtype, `none` for the object (string) columns, on which pandas
`nlargest` refuses to operate. -/
def numericColumn : String → Option (StockRecord → Option ℚ)
  | "currentPrice" => some (fun r => some r.currentPrice)
  | "volume" => some (fun r => some ((r.volume : ℚ)))
  | "marketCap" => some (fun r => some r.marketCap)
  | "pe_ratio" => some (fun r => StockRecord.pe_ratio r)
  | "pb_ratio" => some (fun r => StockRecord.pb_ratio r)
  | "roe" => some (fun r => r.roe)
  | "profit_margin" => some (fun r => r.profit_margin)
  | "momentum_30d" => some (fun r => r.momentum_30d)
  | "pe_score" => some (fun r => (r.pe_score).map (fun z => (z : ℚ)))
  | "volume_score" => some (fun r => (r.volume_score).map (fun z => (z : ℚ)))
  | "momentum_score" => some (fun r => (r.momentum_score).map (fun z => (z : ℚ)))
  | "profit_score" => some (fun r => (r.profit_score).map (fun z => (z : ℚ)))
  | "overall_score" => some (fun r => r.overall_score)
  | _ => none

/-- `StockAnalyzer.get_top_stocks`: raises `ValueError` when `metric` is
not a column; `df.nlargest(top_n, metric)` then raises `TypeError` on an
object-dtype column, and otherwise drops `NaN` rows and returns the first
`top_n` rows of a stable descending sort. -/
def get_top_stocks (df : List StockRecord) (metric : String)
    (top_n : ℕ) : Except String (List StockRecord) :=
  if metric ∈ stockColumns then
    match numericColumn metric with
    | some f =>
        .ok ((((df.filter (fun r => (f r).isSome)).mergeSort
          (fun a b => descLe (f a) (f b)))).take top_n)
    | none => .error "TypeError: cannot use method nlargest with this dtype"
  else .error "ValueError: Metric not found in dataframe"

/-- The `criteria` dict of `get_stocks_by_criteria`: each recognized key
is optional. -/
structure Criteria where
  min_pe : Option ℚ := none
  max_pe : Option ℚ := none
  min_momentum : Option ℚ := none
  min_profit_margin : Option ℚ := none
  min_volume : Option ℤ := none
deriving DecidableEq, Repr

/-- A pandas boolean-mask comparison `column cmp threshold` on a nullable
column: `NaN` compares false. -/
def maskGe (v? : Option ℚ) (t : ℚ) : Bool :=
  match v? with
  | none => false
  | some v => decide (t ≤ v)

/-- `StockAnalyzer.get_stocks_by_criteria`: the five masks applied in
source order, each only when its key is present. -/
def get_stocks_by_criteria (df : List StockRecord) (criteria : Criteria) :
    List StockRecord :=
  let d1 := match criteria.min_pe with
    | none => df
    | some t => df.filter (fun r => maskGe ( StockRecord.pe_ratio r) t)
  let d2 := match criteria.max_pe with
    | none => d1
    | some t => d1.filter (fun r =>
        match StockRecord.pe_ratio r with
        | none => false
        | some v => decide (v ≤ t))
  let d3 := match criteria.min_momentum with
    | none => d2
    | some t => d2.filter (fun r => maskGe r.momentum_30d t)
  let d4 := match criteria.min_profit_margin with
    | none => d3
    | some t => d3.filter (fun r =>
        maskGe ((r.profit_margin).map (fun v => v * 100)) t)
  match criteria.min_volume with
  | none => d4
  | some t => d4.filter (fun r => decide (t ≤ r.volume))

/-- One row of the `get_sector_analysis` result: group key plus the five
aggregated columns (named as in the source after the column rename).
Aggregates are `none` when every value in the group is `NaN`. -/
structure SectorRow where
  sector : String
  avg_score : Option ℚ
  stock_count : ℕ
  avg_pe : Option ℚ
  avg_momentum : Option ℚ
  avg_profit_margin : Option ℚ
deriving DecidableEq, Repr

/-- Pandas `mean` aggregation rounded to two decimals: `NaN` values are
skipped; the mean of an all-`NaN` column is `NaN`. -/
def aggMean (vals : List ℚ) : Option ℚ :=
  if vals = [] then none
  else some (round2 (vals.sum / (vals.length : ℚ)))

/-- The aggregated row `get_sector_analysis` builds for the group of
sector `s`: mean overall score and count (pandas `count` counts the
non-`NaN` `overall_score` entries of the group), and the three further
means, each rounded to two decimals. -/
def sectorRowFor (df : List StockRecord) (s : String) : SectorRow :=
  let g := df.filter (fun r => r.sector = s)
  { sector := s
    avg_score := aggMean (g.filterMap (fun r => r.overall_score))
    stock_count := (g.filterMap (fun r => r.overall_score)).length
    avg_pe := aggMean (g.filterMap (fun r => StockRecord.pe_ratio r))
    avg_momentum := aggMean (g.filterMap (fun r => r.momentum_30d))
    avg_profit_margin := aggMean (g.filterMap (fun r => r.profit_margin)) }

/-- `StockAnalyzer.get_sector_analysis`: group by `sector`, aggregate,
and sort descending by `avg_score`. The order in which `groupby`
enumerates the group keys is irrelevant after the final sort; we use
first occurrence. -/
def get_sector_analysis (df : List StockRecord) : List SectorRow :=
  (((df.map (fun r => r.sector)).dedup).map (fun s => sectorRowFor df s)).mergeSort
    (fun a b => descLe a.avg_score b.avg_score)

/-! ### Data fetcher (src/stock_data.py) -/

/-- The provider response fields consumed by `get_stock_details_yfinance`
(`stock.info`); `none` models an absent dict key, replaced by the
`info.get(..., default)` defaults. -/
structure YfInfo where
  longName : Option String := none
  marketCap : Option ℚ := none
  trailingPE : Option ℚ := none
  priceToBook : Option ℚ := none
  returnOnEquity : Option ℚ := none
  profitMargins : Option ℚ := none
  sector : Option String := none
  industry : Option String := none
deriving DecidableEq, Repr

/-- One bar of the 1-month history: the `Close` and `Volume` series. -/
structure HistBar where
  close : ℚ
  volume : ℤ
deriving DecidableEq, Repr

/-- `IndianStockDataFetcher.get_stock_details_yfinance`, given the
provider's response: `none` (a skipped symbol) when the history is empty,
otherwise the record dict, with momentum
`(lastClose - firstClose) / firstClose * 100` rounded to two decimals
(0 when there is a single bar) and each missing fundamental defaulted. -/
def get_stock_details_yfinance (symbol : String) (info : YfInfo)
    (hist : List HistBar) : Option StockRecord :=
  match hist with
  | [] => none
  | h0 :: rest =>
    let lastBar := (rest.getLast?).getD h0
    let momentum :=
      if rest = [] then 0
      else (lastBar.close - h0.close) / h0.close * 100
    some
      { symbol := symbol
        companyName := (info.longName).getD symbol
        currentPrice := round2 lastBar.close
        volume := lastBar.volume
        marketCap := (info.marketCap).getD 0
        pe_ratio := some ((info.trailingPE).getD 0)
        pb_ratio := some ((info.priceToBook).getD 0)
        roe := some ((info.returnOnEquity).getD 0)
        profit_margin := some ((info.profitMargins).getD 0)
        momentum_30d := some (round2 momentum)
        sector := (info.sector).getD "Unknown"
        industry := (info.industry).getD "Unknown" }

/-- `IndianStockDataFetcher.get_multiple_stocks_data`, with the per-symbol
network fetch abstracted as `fetch`: loop over the first `max_stocks`
symbols, appending each successful record to the accumulator. -/
def fetchLoop (fetch : String → Option StockRecord)
    (acc : List StockRecord) : List String → List StockRecord
  | [] => acc
  | s :: rest =>
    match fetch s with
    | some d => fetchLoop fetch (acc ++ [d]) rest
    | none => fetchLoop fetch acc rest

/-- `IndianStockDataFetcher.get_multiple_stocks_data`. -/
def get_multiple_stocks_data (fetch : String → Option StockRecord)
    (symbols : List String) (max_stocks : ℕ := 20) : List StockRecord :=
  fetchLoop fetch [] (symbols.take max_stocks)

/-- The PE bucket rules exactly as the specification words them (inclusive
lower bounds), for comparison with the source's `peScoreVal`. -/
def peScoreSpec (pe? : Option ℚ) : ℤ :=
  match pe? with
  | none => 1
  | some pe =>
    if pe ≤ 0 then 1
    else if 0 < pe ∧ pe < 15 then 10
    else if 15 ≤ pe ∧ pe < 25 then 8
    else if 25 ≤ pe ∧ pe < 35 then 5
    else 2

/-- The unscored part of a row: the same record with the five score
columns removed (reset to absent). Two datasets with equal images under
this map agree on every unscored field. -/
def stripScores (r : StockRecord) : StockRecord :=
  { r with
    pe_score := none
    volume_score := none
    momentum_score := none
    profit_score := none
    overall_score := none }

/-- The criteria semantics as the specification words them: a single
row-wise predicate in which each recognized key applies its threshold
only when present and absent keys impose no constraint. -/
def criteriaSat (c : Criteria) (r : StockRecord) : Bool :=
  (match c.min_pe with
   | none => true
   | some t => maskGe ( StockRecord.pe_ratio r) t) &&
  (match c.max_pe with
   | none => true
   | some t =>
     match StockRecord.pe_ratio r with
     | none => false
     | some v => decide (v ≤ t)) &&
  (match c.min_momentum with
   | none => true
   | some t => maskGe r.momentum_30d t) &&
  (match c.min_profit_margin with
   | none => true
   | some t => maskGe ((r.profit_margin).map (fun v => v * 100)) t) &&
  (match c.min_volume with
   | none => true
   | some t => decide (t ≤ r.volume))

/-- A minimal record used as concrete input in witnesses and
counterexamples. -/
def sampleRecord (sym : String) (vol : ℤ) : StockRecord :=
  { symbol := sym
    companyName := sym
    currentPrice := 1
    volume := vol
    marketCap := 0
    pe_ratio := some 10
    pb_ratio := some 1
    roe := some (3/10)
    profit_margin := some (1/2)
    momentum_30d := some 25
    sector := "Energy"
    industry := "Oil" }

/-- A scored sample row with a given overall score, for concrete
examples. -/
def exRow (sym : String) (score : ℚ) : StockRecord :=
  { sampleRecord sym 1 with overall_score := some score }

/-- The five-row scored dataset of the specification's top-N acceptance
example: overall scores 9.1, 4.0, 7.5, 9.1, 2.0 in dataset order. -/
def ex5 : List StockRecord :=
  [exRow "A" (91/10), exRow "B" 4, exRow "C" (75/10),
   exRow "D" (91/10), exRow "E" 2]

end StockAnalysis

namespace StockAnalysis

lemma peScoreVal_eq_spec (pe? : Option ℚ) : peScoreVal pe? = peScoreSpec pe? := by
  cases pe? with
  | none => rfl
  | some pe =>
    by_cases h0 : pe ≤ 0
    · simp [peScoreVal, peScoreSpec, h0]
    · by_cases hA : pe < 15
      · simp [peScoreVal, peScoreSpec, h0, hA, not_le.mp h0]
      · by_cases hB : pe < 25
        · simp [peScoreVal, peScoreSpec, h0, hA, hB, not_lt.mp hA]
        · by_cases hC : pe < 35
          · simp [peScoreVal, peScoreSpec, h0, hA, hB, hC, not_lt.mp hB]
          · simp [peScoreVal, peScoreSpec, h0, hA, hB, hC]

/-- C3: `calculate_pe_score` returns 1 when `pe_ratio` is ≤ 0 or absent,
10 when 0 < pe < 15, 8 when 15 ≤ pe < 25, 5 when 25 ≤ pe < 35, and 2
otherwise; in particular a PE of exactly 15 scores 8, not 10. -/
theorem pe_score_matches_spec :
    (∀ df : List StockRecord, calculate_pe_score df =
      df.map (fun r => peScoreSpec ( StockRecord.pe_ratio r))) ∧
    peScoreVal (some 15) = 8 ∧ peScoreVal (some 15) ≠ 10 := by
  refine ⟨fun df => ?_, by norm_num [peScoreVal], by norm_num [peScoreVal]⟩
  simp only [calculate_pe_score, peScoreVal_eq_spec]

/-- C1 counterexample: a two-row dataset whose volumes are both the
nonzero value 7; the pandas average percentile rank of each row is 3/4,
so `calculate_volume_score` assigns 8, not 10, to both rows. -/
theorem volume_score_equal_volumes_counterexample :
    calculate_volume_score [sampleRecord "A" 7, sampleRecord "B" 7] = [8, 8] ∧
    ([8, 8] : List ℤ) ≠ [10, 10] := by
  constructor
  · norm_num [calculate_volume_score, pctRank, volumeBucket, sampleRecord,
      List.countP, List.countP.go]
  · decide

lemma volumeBucket_avg_rank (n : ℕ) (hn : 1 ≤ n) :
    volumeBucket (((n : ℚ) + 1) / (2 * n)) =
      if n = 1 then 10 else if n ≤ 5 then 8 else 6 := by
  have h0 : (0 : ℚ) < (n : ℚ) := by exact_mod_cast Nat.lt_of_lt_of_le Nat.zero_lt_one hn
  have hq : (0 : ℚ) < 2 * n := by linarith
  rcases eq_or_ne n 1 with h1 | h1
  · subst h1; norm_num [volumeBucket]
  · have h2 : 2 ≤ n := by omega
    have h2q : (2 : ℚ) ≤ (n : ℚ) := by exact_mod_cast h2
    have hub8 : ¬ ((8 : ℚ) / 10 ≤ ((n : ℚ) + 1) / (2 * n)) := by
      rw [not_le, div_lt_div_iff₀ hq (by norm_num)]
      linarith
    by_cases h5 : n ≤ 5
    · have h5q : (n : ℚ) ≤ 5 := by exact_mod_cast h5
      have hlb6 : (6 : ℚ) / 10 ≤ ((n : ℚ) + 1) / (2 * n) := by
        rw [div_le_div_iff₀ (by norm_num) hq]
        linarith
      simp [volumeBucket, ge_iff_le, hub8, hlb6, h1, h5]
    · have h6q : (6 : ℚ) ≤ (n : ℚ) := by exact_mod_cast (by omega : 6 ≤ n)
      have hub6 : ¬ ((6 : ℚ) / 10 ≤ ((n : ℚ) + 1) / (2 * n)) := by
        rw [not_le, div_lt_div_iff₀ hq (by norm_num)]
        linarith
      have hlb4 : (4 : ℚ) / 10 ≤ ((n : ℚ) + 1) / (2 * n) := by
        rw [div_le_div_iff₀ (by norm_num) hq]
        linarith
      simp [volumeBucket, ge_iff_le, hub8, hub6, hlb4, h1, h5]

/-- C1 amended: when all volumes of the dataset equal the same nonzero
value, every row gets the same pandas average percentile rank
`(n+1)/(2n)`, so every row gets the same volume score — but that score is
10 only for a one-row dataset; it is 8 for 2–5 rows and 6 for 6 or more
rows. -/
theorem volume_score_equal_volumes_amended (df : List StockRecord) (v : ℤ)
    (hv : v ≠ 0) (hall : ∀ r ∈ df, r.volume = v) :
    calculate_volume_score df = List.replicate df.length
      (if df.length = 1 then 10 else if df.length ≤ 5 then 8 else 6) := by
  cases df with
  | nil => simp [calculate_volume_score]
  | cons a l =>
    have hn : 1 ≤ (a :: l).length := by simp
    have hvols : (a :: l).map (fun r => r.volume) =
        List.replicate (a :: l).length v := by
      rw [List.eq_replicate_iff]
      refine ⟨by simp, ?_⟩
      intro b hb
      obtain ⟨r, hr, rfl⟩ := List.mem_map.mp hb
      exact hall r hr
    have hsum : ((a :: l).map (fun r => r.volume)).sum ≠ 0 := by
      rw [hvols, List.sum_replicate, nsmul_eq_mul]
      refine mul_ne_zero ?_ hv
      have : (0:ℕ) < (a :: l).length := hn
      exact_mod_cast this.ne'
    have hrank : ∀ r ∈ (a :: l),
        pctRank ((a :: l).map (fun x => x.volume)) r.volume =
        (((a :: l).length : ℚ) + 1) / (2 * (a :: l).length) := by
      intro r hr
      rw [hall r hr, pctRank, hvols]
      have hlt : (List.replicate (a :: l).length v).countP
          (fun w => decide (w < v)) = 0 := by
        rw [List.countP_eq_zero]
        intro b hb
        rw [List.eq_of_mem_replicate hb]
        simp
      have hle : (List.replicate (a :: l).length v).countP
          (fun w => decide (w ≤ v)) = (a :: l).length := by
        have h := List.countP_eq_length.mpr
          (fun b hb => by rw [List.eq_of_mem_replicate hb]; simp :
            ∀ b ∈ List.replicate (a :: l).length v, decide (b ≤ v) = true)
        simpa using h
      rw [hlt, hle]
      push_cast [List.length_replicate]
      ring_nf
    simp only [calculate_volume_score]
    rw [if_neg hsum]
    have hmap : ((a :: l).map fun r =>
        volumeBucket (pctRank ((a :: l).map (fun x => x.volume)) r.volume)) =
        (a :: l).map (fun _ =>
          if (a :: l).length = 1 then 10 else if (a :: l).length ≤ 5 then 8 else 6) := by
      apply List.map_congr_left
      intro r hr
      rw [hrank r hr, volumeBucket_avg_rank _ hn]
    rw [hmap, List.map_const']

/-- Witness for the amended C1: six rows of equal nonzero volume all
receive volume score 6. -/
theorem volume_score_equal_volumes_amended_witness :
    calculate_volume_score (List.replicate 6 (sampleRecord "A" 7)) =
      List.replicate 6 6 := by
  have h := volume_score_equal_volumes_amended
    (List.replicate 6 (sampleRecord "A" 7)) 7 (by decide)
    (by intro r hr; rw [List.eq_of_mem_replicate hr]; rfl)
  simpa using h

/-- C4: the four weights are stored as an explicit named configuration
summing to exactly 1; every scored row's `overall_score` is the weighted
sum of its four sub-scores rounded to two decimals, and a row whose four
sub-scores are all 10 gets exactly 10. -/
theorem overall_score_weighted_sum :
    scoring_weights.pe_score + scoring_weights.volume_score +
      scoring_weights.momentum_score + scoring_weights.profit_score = 1 ∧
    ∀ df r, r ∈ calculate_overall_score df →
      ∃ p v m f : ℤ, r.pe_score = some p ∧ r.volume_score = some v ∧
        r.momentum_score = some m ∧ r.profit_score = some f ∧
        r.overall_score = some (round2
          (scoring_weights.pe_score * p + scoring_weights.volume_score * v +
           scoring_weights.momentum_score * m + scoring_weights.profit_score * f)) ∧
        (p = 10 → v = 10 → m = 10 → f = 10 → r.overall_score = some 10) := by
  refine ⟨by norm_num [scoring_weights], ?_⟩
  intro df r hr
  simp only [calculate_overall_score, List.mem_map] at hr
  obtain ⟨r0, _, rfl⟩ := hr
  refine ⟨_, _, _, _, rfl, rfl, rfl, rfl, rfl, ?_⟩
  intro hp hv hm hf
  show some (round2 _) = _
  rw [hp, hv, hm, hf]
  norm_num [scoring_weights, round2, roundHalfEven]

/-- Witness for C4: a concrete row whose four sub-scores are all 10 has
`overall_score` exactly 10. -/
theorem overall_score_weighted_sum_witness :
    (scoreRow [sampleRecord "A" 7] (sampleRecord "A" 7)).overall_score =
      some 10 := by
  have hmem : scoreRow [sampleRecord "A" 7] (sampleRecord "A" 7) ∈
      calculate_overall_score [sampleRecord "A" 7] := by
    simp [calculate_overall_score]
  obtain ⟨p, v, m, f, hp, hv, hm, hf, _, h10⟩ :=
    overall_score_weighted_sum.2 [sampleRecord "A" 7] _ hmem
  have hp' : (scoreRow [sampleRecord "A" 7] (sampleRecord "A" 7)).pe_score =
      some 10 := by
    norm_num [scoreRow, peScoreVal, sampleRecord]
  have hv' : (scoreRow [sampleRecord "A" 7] (sampleRecord "A" 7)).volume_score =
      some 10 := by
    norm_num [scoreRow, volumeScoreRow, pctRank, volumeBucket, sampleRecord,
      List.countP, List.countP.go]
  have hm' : (scoreRow [sampleRecord "A" 7] (sampleRecord "A" 7)).momentum_score =
      some 10 := by
    norm_num [scoreRow, momentumScoreVal, sampleRecord]
  have hf' : (scoreRow [sampleRecord "A" 7] (sampleRecord "A" 7)).profit_score =
      some 10 := by
    norm_num [scoreRow, profitScoreVal, sampleRecord]
  exact h10 (Option.some.inj (hp.symm.trans hp'))
    (Option.some.inj (hv.symm.trans hv'))
    (Option.some.inj (hm.symm.trans hm'))
    (Option.some.inj (hf.symm.trans hf'))

lemma fetchLoop_eq (fetch : String → Option StockRecord) :
    ∀ (l : List String) (acc : List StockRecord),
      fetchLoop fetch acc l = acc ++ l.filterMap fetch := by
  intro l
  induction l with
  | nil => intro acc; simp [fetchLoop]
  | cons s rest ih =>
    intro acc
    rw [fetchLoop]
    cases h : fetch s with
    | some d => simp [h, ih]
    | none => simp [h, ih]

/-- C7: the batch fetch truncates the symbol list to `max_stocks`, keeps
exactly the successful per-symbol fetches in fetch order, never exceeds
`max_stocks` records, and returns the empty dataset (without raising)
when every fetch fails; a symbol whose history is empty fetches as
`none`. -/
theorem fetch_batch_skips_failures (fetch : String → Option StockRecord)
    (symbols : List String) (n : ℕ) :
    get_multiple_stocks_data fetch symbols n =
      (symbols.take n).filterMap fetch ∧
    (get_multiple_stocks_data fetch symbols n).length ≤ n ∧
    ((∀ s ∈ symbols, fetch s = none) →
      get_multiple_stocks_data fetch symbols n = []) ∧
    (∀ sym info, get_stock_details_yfinance sym info [] = none) := by
  have heq : get_multiple_stocks_data fetch symbols n =
      (symbols.take n).filterMap fetch := by
    rw [get_multiple_stocks_data, fetchLoop_eq, List.nil_append]
  refine ⟨heq, ?_, ?_, fun sym info => rfl⟩
  · rw [heq]
    calc ((symbols.take n).filterMap fetch).length
        ≤ (symbols.take n).length := List.length_filterMap_le _ _
      _ ≤ n := by simp [List.length_take]
  · intro hall
    rw [heq, List.filterMap_eq_nil_iff]
    intro s hs
    exact hall s (List.mem_of_mem_take hs)

/-- Witness for C7: a batch in which every per-symbol fetch fails returns
the empty dataset. -/
theorem fetch_batch_skips_failures_witness :
    get_multiple_stocks_data (fun _ => none) ["TCS", "INFY"] 20 = [] :=
  (fetch_batch_skips_failures (fun _ => none) ["TCS", "INFY"] 20).2.2.1
    (fun _ _ => rfl)

lemma scoreRow_congr {df df' : List StockRecord} {r r' : StockRecord}
    (hvol : df.map (fun x => x.volume) = df'.map (fun x => x.volume))
    (h : stripScores r = stripScores r') :
    scoreRow df r = scoreRow df' r' := by
  cases r
  cases r'
  simp only [stripScores, StockRecord.mk.injEq] at h
  obtain ⟨rfl, rfl, rfl, rfl, rfl, rfl, rfl, rfl, rfl, rfl, rfl, rfl, -⟩ := h
  simp only [scoreRow, volumeScoreRow, hvol]

lemma calculate_overall_score_congr {df df' : List StockRecord}
    (h : df.map stripScores = df'.map stripScores) :
    calculate_overall_score df = calculate_overall_score df' := by
  have hvol : df.map (fun x => x.volume) = df'.map (fun x => x.volume) := by
    have h1 : (df.map stripScores).map (fun s => s.volume) =
        (df'.map stripScores).map (fun s => s.volume) := congrArg _ h
    simpa [List.map_map] using h1
  have hmain : ∀ (l l' : List StockRecord),
      l.map stripScores = l'.map stripScores →
      l.map (fun r => scoreRow df r) = l'.map (fun r => scoreRow df' r) := by
    intro l
    induction l with
    | nil =>
      intro l' hl
      cases l' with
      | nil => rfl
      | cons b m => simp at hl
    | cons a t ih =>
      intro l' hl
      cases l' with
      | nil => simp at hl
      | cons b m =>
        simp only [List.map_cons, List.cons.injEq] at hl ⊢
        exact ⟨scoreRow_congr hvol hl.1, ih m hl.2⟩
  exact hmain df df' h

/-- C8: the five score columns are deterministic functions of the
unscored fields of the dataset snapshot — scoring two datasets that agree
on every unscored field gives identical scored output — and re-running
the scoring over an already-scored dataset reproduces it unchanged. -/
theorem scoring_deterministic (df df' : List StockRecord)
    (h : df.map stripScores = df'.map stripScores) :
    calculate_overall_score df = calculate_overall_score df' ∧
    calculate_overall_score (calculate_overall_score df) =
      calculate_overall_score df := by
  refine ⟨calculate_overall_score_congr h, calculate_overall_score_congr ?_⟩
  simp only [calculate_overall_score, List.map_map]
  apply List.map_congr_left
  intro r _
  rfl

/-- Witness for C8: two one-row datasets differing only in a pre-existing
score field score identically, and rescoring a scored dataset is a
no-op. -/
theorem scoring_deterministic_witness :
    calculate_overall_score [sampleRecord "A" 7] =
      calculate_overall_score [{ sampleRecord "A" 7 with pe_score := some 3 }] ∧
    calculate_overall_score (calculate_overall_score [sampleRecord "A" 7]) =
      calculate_overall_score [sampleRecord "A" 7] :=
  scoring_deterministic _ _ rfl

/-- C6: `get_stocks_by_criteria` filters by the conjunction of exactly
the present criteria keys (absent keys impose no constraint); with
`min_pe = 10` and `max_pe = 20`, of three rows with PE 5, 15 and 25 only
the PE-15 row is kept. -/
theorem filter_by_criteria_correct :
    (∀ (df : List StockRecord) (c : Criteria),
      get_stocks_by_criteria df c = df.filter (criteriaSat c)) ∧
    get_stocks_by_criteria
        [{ sampleRecord "A" 1 with pe_ratio := some 5 },
         { sampleRecord "B" 1 with pe_ratio := some 15 },
         { sampleRecord "C" 1 with pe_ratio := some 25 }]
        { min_pe := some 10, max_pe := some 20 } =
      [{ sampleRecord "B" 1 with pe_ratio := some 15 }] := by
  constructor
  · intro df c
    rcases c with ⟨mp, xp, mm, mpm, mv⟩
    simp only [get_stocks_by_criteria, criteriaSat]
    cases mp <;> cases xp <;> cases mm <;> cases mpm <;> cases mv <;>
      simp only [List.filter_filter] <;>
      first
        | (symm; simp [criteriaSat])
        | (apply List.filter_congr
           intro r hr
           simp [criteriaSat, Bool.and_comm, Bool.and_assoc, Bool.and_left_comm])
  · norm_num [get_stocks_by_criteria, maskGe, List.filter, sampleRecord]

lemma descLe_trans (a b c : Option ℚ) (h1 : descLe a b = true)
    (h2 : descLe b c = true) : descLe a c = true := by
  cases a <;> cases b <;> cases c <;> simp_all [descLe] <;> exact le_trans h2 h1

lemma descLe_total (a b : Option ℚ) : descLe a b || descLe b a := by
  cases a <;> cases b <;> simp [descLe] <;> exact le_total _ _

lemma numericColumn_mem {metric : String} {f : StockRecord → Option ℚ}
    (hf : numericColumn metric = some f) : metric ∈ stockColumns := by
  unfold numericColumn at hf
  split at hf <;> simp_all [stockColumns]

/-- C9 counterexample: `sector` is a column of the dataset, yet
`get_top_stocks` on metric `sector` raises (pandas `nlargest` refuses
object-dtype columns), so a column metric does not guarantee the absence
of an error. -/
theorem top_stocks_error_counterexample :
    "sector" ∈ stockColumns ∧
    (get_top_stocks [sampleRecord "A" 1] "sector" 1).isOk = false := by
  constructor
  · decide
  · rfl

/-- C9 amended: a metric that is not a column raises an explicit
`ValueError`; a metric naming a *numeric* column never raises; every
numeric-column metric is indeed a column (only the object-dtype columns
`symbol`, `companyName`, `sector`, `industry` are columns that still
raise, via `nlargest`'s dtype `TypeError`). -/
theorem top_stocks_error_amended (df : List StockRecord) (metric : String)
    (n : ℕ) :
    (metric ∉ stockColumns →
      ∃ msg, get_top_stocks df metric n = .error msg) ∧
    ((numericColumn metric).isSome = true →
      (get_top_stocks df metric n).isOk = true) ∧
    ((numericColumn metric).isSome = true → metric ∈ stockColumns) := by
  refine ⟨?_, ?_, ?_⟩
  · intro h
    rw [get_top_stocks, if_neg h]
    exact ⟨_, rfl⟩
  · intro h
    obtain ⟨f, hf⟩ := Option.isSome_iff_exists.mp h
    rw [get_top_stocks, if_pos (numericColumn_mem hf), hf]
    rfl
  · intro h
    obtain ⟨f, hf⟩ := Option.isSome_iff_exists.mp h
    exact numericColumn_mem hf

/-- Witness for the amended C9: the unknown metric `foo` raises, while
the numeric column `overall_score` does not. -/
theorem top_stocks_error_amended_witness :
    (∃ msg, get_top_stocks [sampleRecord "A" 1] "foo" 3 = .error msg) ∧
    (get_top_stocks [sampleRecord "A" 1] "overall_score" 3).isOk = true :=
  ⟨(top_stocks_error_amended [sampleRecord "A" 1] "foo" 3).1 (by decide),
   (top_stocks_error_amended [sampleRecord "A" 1] "overall_score" 3).2.1
     (by decide)⟩

/-- C5: on a scored dataset `get_top_stocks` over `overall_score` returns
`n` rows forming, together with the discarded rows, a permutation of the
dataset; the returned rows are sorted descending by `overall_score` and
every returned row scores at least every discarded row; on the five-row
dataset with scores 9.1, 4.0, 7.5, 9.1, 2.0 the top 3 are the 9.1, 9.1
and 7.5 rows with the tied pair in original order. -/
theorem top_stocks_sorted (df : List StockRecord) (n : ℕ)
    (hs : ∀ r ∈ df, (r.overall_score).isSome = true) :
    (∃ l rest, get_top_stocks df "overall_score" n = .ok l ∧
      (l ++ rest).Perm df ∧
      l.Pairwise (fun a b => descLe a.overall_score b.overall_score = true) ∧
      (∀ a ∈ l, ∀ b ∈ rest, descLe a.overall_score b.overall_score = true) ∧
      (∀ a b, [a, b].Sublist df →
        descLe a.overall_score b.overall_score = true →
        [a, b].Sublist (l ++ rest)) ∧
      l.length = min n df.length) ∧
    get_top_stocks ex5 "overall_score" 3 =
      .ok [exRow "A" (91/10), exRow "D" (91/10), exRow "C" (75/10)] := by
  have hnum : numericColumn "overall_score" =
      some (fun r => r.overall_score) := rfl
  have htrans : ∀ a b c : StockRecord,
      descLe a.overall_score b.overall_score = true →
      descLe b.overall_score c.overall_score = true →
      descLe a.overall_score c.overall_score = true :=
    fun a b c h1 h2 => descLe_trans _ _ _ h1 h2
  have htotal : ∀ a b : StockRecord,
      descLe a.overall_score b.overall_score ||
        descLe b.overall_score a.overall_score :=
    fun a b => descLe_total _ _
  constructor
  · have hfil : df.filter (fun r => (r.overall_score).isSome) = df :=
      List.filter_eq_self.mpr hs
    have hsorted := List.sorted_mergeSort htrans htotal df
    refine ⟨(df.mergeSort
        (fun a b => descLe a.overall_score b.overall_score)).take n,
      (df.mergeSort
        (fun a b => descLe a.overall_score b.overall_score)).drop n,
      ?_, ?_, ?_, ?_, ?_, ?_⟩
    · rw [get_top_stocks, if_pos (by decide : "overall_score" ∈ stockColumns),
        hnum]
      show Except.ok (List.take n ((List.filter
          (fun r => (r.overall_score).isSome) df).mergeSort
          (fun a b => descLe a.overall_score b.overall_score))) = _
      rw [hfil]
    · rw [List.take_append_drop]
      exact List.mergeSort_perm df _
    · exact hsorted.sublist (List.take_sublist _ _)
    · intro a ha b hb
      have := (List.pairwise_append.mp
        (by rwa [List.take_append_drop] : ((df.mergeSort
          (fun a b => descLe a.overall_score b.overall_score)).take n ++
          (df.mergeSort
            (fun a b => descLe a.overall_score b.overall_score)).drop n).Pairwise
          (fun a b => descLe a.overall_score b.overall_score = true))).2.2
      exact this a ha b hb
    · intro a b hab hle
      rw [List.take_append_drop]
      exact List.pair_sublist_mergeSort htrans htotal hle hab
    · rw [List.length_take, List.length_mergeSort]
  · rw [get_top_stocks, if_pos (by decide : "overall_score" ∈ stockColumns),
      hnum]
    norm_num [ex5, exRow, sampleRecord, descLe, List.filter,
      List.mergeSort, List.splitInTwo, List.merge]

/-- Witness for C5: on the five-row example dataset the general top-N
characterization holds (and the concrete top-3 selection is part of the
theorem itself). -/
theorem top_stocks_sorted_witness :
    (∃ l rest, get_top_stocks ex5 "overall_score" 3 = .ok l ∧
      (l ++ rest).Perm ex5 ∧
      l.Pairwise (fun a b => descLe a.overall_score b.overall_score = true) ∧
      (∀ a ∈ l, ∀ b ∈ rest, descLe a.overall_score b.overall_score = true) ∧
      (∀ a b, [a, b].Sublist ex5 →
        descLe a.overall_score b.overall_score = true →
        [a, b].Sublist (l ++ rest)) ∧
      l.length = min 3 ex5.length) :=
  (top_stocks_sorted ex5 3
    (by intro r hr; fin_cases hr <;> rfl)).1

lemma filterMap_length_all_some {α β : Type} (f : α → Option β) :
    ∀ (l : List α), (∀ x ∈ l, (f x).isSome = true) →
      (l.filterMap f).length = l.length := by
  intro l
  induction l with
  | nil => intro _; rfl
  | cons a t ih =>
    intro h
    rw [List.filterMap_cons]
    cases hfa : f a with
    | none => exact absurd (h a (by simp)) (by simp [hfa])
    | some b => simp [ih (fun x hx => h x (by simp [hx]))]

/-- C2: on a scored dataset, `get_sector_analysis` produces one row per
distinct sector value whose `stock_count` is the number of dataset rows
with exactly that sector, the result is sorted descending by the group's
mean overall score, and a record fetched with a missing provider sector
carries sector `"Unknown"` (and so lands in the `"Unknown"` group). -/
theorem sector_analysis_correct (df : List StockRecord)
    (hs : ∀ r ∈ df, (r.overall_score).isSome = true) :
    (∀ row ∈ get_sector_analysis df,
        row.stock_count = df.countP (fun r => decide (r.sector = row.sector))) ∧
    ((get_sector_analysis df).map (fun row => row.sector)).Perm
        ((df.map (fun r => r.sector)).dedup) ∧
    (get_sector_analysis df).Pairwise
        (fun a b => descLe a.avg_score b.avg_score = true) ∧
    (∀ sym info hist r, get_stock_details_yfinance sym info hist = some r →
        info.sector = none → r.sector = "Unknown") := by
  refine ⟨?_, ?_, ?_, ?_⟩
  · intro row hrow
    simp only [get_sector_analysis] at hrow
    have hrow' := (List.mergeSort_perm _
      (fun (a b : SectorRow) => descLe a.avg_score b.avg_score)).subset hrow
    obtain ⟨s, _, rfl⟩ := List.mem_map.mp hrow'
    simp only [sectorRowFor]
    rw [filterMap_length_all_some (fun r => r.overall_score) _
      (fun x hx => hs x (List.mem_of_mem_filter hx))]
    rw [List.countP_eq_length_filter]
  · simp only [get_sector_analysis]
    refine (List.Perm.map (fun (row : SectorRow) => row.sector)
      (List.mergeSort_perm _ _)).trans ?_
    rw [List.map_map]
    show (((df.map (fun r => r.sector)).dedup).map (fun s : String => s)).Perm
      ((df.map (fun r => r.sector)).dedup)
    simp
  · simp only [get_sector_analysis]
    exact @List.sorted_mergeSort SectorRow
      (fun a b => descLe a.avg_score b.avg_score)
      (fun a b c h1 h2 => descLe_trans _ _ _ h1 h2)
      (fun a b => descLe_total _ _) _
  · intro sym info hist r h hsec
    cases hist with
    | nil => simp [get_stock_details_yfinance] at h
    | cons h0 rest =>
      simp only [get_stock_details_yfinance, Option.some.injEq] at h
      rw [← h]
      simp [hsec]

/-- Witness for C2 at a concrete two-row scored dataset. -/
theorem sector_analysis_correct_witness :
    (∀ row ∈ get_sector_analysis [exRow "A" 9, exRow "B" 5],
        row.stock_count = ([exRow "A" 9, exRow "B" 5]).countP
          (fun r => decide (r.sector = row.sector))) ∧
    ((get_sector_analysis [exRow "A" 9, exRow "B" 5]).map
        (fun row => row.sector)).Perm
      ((([exRow "A" 9, exRow "B" 5]).map (fun r => r.sector)).dedup) ∧
    (get_sector_analysis [exRow "A" 9, exRow "B" 5]).Pairwise
        (fun a b => descLe a.avg_score b.avg_score = true) ∧
    (∀ sym info hist r, get_stock_details_yfinance sym info hist = some r →
        info.sector = none → r.sector = "Unknown") :=
  sector_analysis_correct [exRow "A" 9, exRow "B" 5]
    (by intro r hr; fin_cases hr <;> rfl)

lemma peScoreVal_mem (pe? : Option ℚ) :
    peScoreVal pe? ∈ ([1, 2, 5, 8, 10] : List ℤ) := by
  cases pe? with
  | none => simp [peScoreVal]
  | some pe =>
    simp only [peScoreVal]
    split_ifs <;> simp

lemma volumeBucket_mem (p : ℚ) : volumeBucket p ∈ ([2, 4, 6, 8, 10] : List ℤ) := by
  simp only [volumeBucket]
  split_ifs <;> simp

lemma volumeScoreRow_mem (df : List StockRecord) (r : StockRecord) :
    volumeScoreRow df r ∈ ([2, 4, 5, 6, 8, 10] : List ℤ) := by
  simp only [volumeScoreRow]
  split_ifs with h
  · simp
  · have h2 := volumeBucket_mem (pctRank (df.map (fun x => x.volume)) r.volume)
    simp only [List.mem_cons, List.not_mem_nil, or_false] at h2 ⊢
    rcases h2 with h2 | h2 | h2 | h2 | h2 <;> rw [h2] <;> norm_num

lemma momentumScoreVal_mem (m? : Option ℚ) :
    momentumScoreVal m? ∈ ([2, 4, 5, 6, 8, 10] : List ℤ) := by
  cases m? with
  | none => simp [momentumScoreVal]
  | some m =>
    simp only [momentumScoreVal]
    split_ifs <;> simp

lemma profitScoreVal_bounds (pm? roe? : Option ℚ) :
    2 ≤ profitScoreVal pm? roe? ∧ profitScoreVal pm? roe? ≤ 10 := by
  simp only [profitScoreVal]
  split_ifs <;> omega

lemma floor_le_roundHalfEven (x : ℚ) : ⌊x⌋ ≤ roundHalfEven x := by
  simp only [roundHalfEven]
  split_ifs <;> omega

lemma roundHalfEven_le_ceil (x : ℚ) : roundHalfEven x ≤ ⌈x⌉ := by
  simp only [roundHalfEven]
  split_ifs with h1 h2 h3
  · exact Int.floor_le_ceil x
  · have hx : ((⌊x⌋ : ℤ) : ℚ) < x := by linarith
    have h := Int.lt_ceil.mpr hx
    omega
  · exact Int.floor_le_ceil x
  · have h1' := not_lt.mp h1
    have hx : ((⌊x⌋ : ℤ) : ℚ) < x := by linarith
    have h := Int.lt_ceil.mpr hx
    omega

lemma round2_bounds {x : ℚ} (h1 : 7/4 ≤ x) (h2 : x ≤ 10) :
    7/4 ≤ round2 x ∧ round2 x ≤ 10 := by
  have hfl : (175 : ℤ) ≤ ⌊100 * x⌋ := Int.le_floor.mpr (by push_cast; linarith)
  have hcl : ⌈100 * x⌉ ≤ (1000 : ℤ) := Int.ceil_le.mpr (by push_cast; linarith)
  have hlo' : (175 : ℤ) ≤ roundHalfEven (100 * x) :=
    le_trans hfl (floor_le_roundHalfEven (100 * x))
  have hhi' : roundHalfEven (100 * x) ≤ 1000 :=
    le_trans (roundHalfEven_le_ceil (100 * x)) hcl
  constructor
  · rw [round2, le_div_iff₀ (by norm_num : (0:ℚ) < 100)]
    calc (7:ℚ)/4 * 100 = 175 := by norm_num
      _ ≤ ((roundHalfEven (100 * x) : ℤ) : ℚ) := by exact_mod_cast hlo'
  · rw [round2, div_le_iff₀ (by norm_num : (0:ℚ) < 100)]
    calc ((roundHalfEven (100 * x) : ℤ) : ℚ) ≤ 1000 := by exact_mod_cast hhi'
      _ = 10 * 100 := by norm_num

/-- C10: every scored row has `pe_score` in {1,2,5,8,10}, `volume_score`
and `momentum_score` in {2,4,5,6,8,10}, `profit_score` an integer between
2 and 10, and consequently `overall_score` between 1.75 and 10. -/
theorem sub_score_ranges (df : List StockRecord) (r : StockRecord)
    (h : r ∈ calculate_overall_score df) :
    (∃ p, r.pe_score = some p ∧ p ∈ ([1, 2, 5, 8, 10] : List ℤ)) ∧
    (∃ v, r.volume_score = some v ∧ v ∈ ([2, 4, 5, 6, 8, 10] : List ℤ)) ∧
    (∃ m, r.momentum_score = some m ∧ m ∈ ([2, 4, 5, 6, 8, 10] : List ℤ)) ∧
    (∃ f, r.profit_score = some f ∧ 2 ≤ f ∧ f ≤ 10) ∧
    (∃ o, r.overall_score = some o ∧ 7/4 ≤ o ∧ o ≤ 10) := by
  simp only [calculate_overall_score, List.mem_map] at h
  obtain ⟨r0, _, rfl⟩ := h
  have hp := peScoreVal_mem ( StockRecord.pe_ratio r0)
  have hv := volumeScoreRow_mem df r0
  have hm := momentumScoreVal_mem r0.momentum_30d
  have hf := profitScoreVal_bounds r0.profit_margin r0.roe
  have hp1 : (1:ℤ) ≤ peScoreVal ( StockRecord.pe_ratio r0) ∧
      peScoreVal ( StockRecord.pe_ratio r0) ≤ 10 := by
    have h' := hp
    simp only [List.mem_cons, List.not_mem_nil, or_false] at h'
    rcases h' with h' | h' | h' | h' | h' <;> omega
  have hv1 : (2:ℤ) ≤ volumeScoreRow df r0 ∧ volumeScoreRow df r0 ≤ 10 := by
    have h' := hv
    simp only [List.mem_cons, List.not_mem_nil, or_false] at h'
    rcases h' with h' | h' | h' | h' | h' | h' <;> omega
  have hm1 : (2:ℤ) ≤ momentumScoreVal r0.momentum_30d ∧
      momentumScoreVal r0.momentum_30d ≤ 10 := by
    have h' := hm
    simp only [List.mem_cons, List.not_mem_nil, or_false] at h'
    rcases h' with h' | h' | h' | h' | h' | h' <;> omega
  refine ⟨⟨_, rfl, hp⟩, ⟨_, rfl, hv⟩, ⟨_, rfl, hm⟩, ⟨_, rfl, hf.1, hf.2⟩,
    ⟨_, rfl, ?_⟩⟩
  have q1 : (1:ℚ) ≤ (peScoreVal ( StockRecord.pe_ratio r0) : ℚ) := by
    exact_mod_cast hp1.1
  have q2 : (peScoreVal ( StockRecord.pe_ratio r0) : ℚ) ≤ 10 := by
    exact_mod_cast hp1.2
  have q3 : (2:ℚ) ≤ (volumeScoreRow df r0 : ℚ) := by exact_mod_cast hv1.1
  have q4 : (volumeScoreRow df r0 : ℚ) ≤ 10 := by exact_mod_cast hv1.2
  have q5 : (2:ℚ) ≤ (momentumScoreVal r0.momentum_30d : ℚ) := by
    exact_mod_cast hm1.1
  have q6 : (momentumScoreVal r0.momentum_30d : ℚ) ≤ 10 := by
    exact_mod_cast hm1.2
  have q7 : (2:ℚ) ≤ (profitScoreVal r0.profit_margin r0.roe : ℚ) := by
    exact_mod_cast hf.1
  have q8 : (profitScoreVal r0.profit_margin r0.roe : ℚ) ≤ 10 := by
    exact_mod_cast hf.2
  refine round2_bounds ?_ ?_ <;> simp only [scoring_weights] <;> linarith

/-- Witness for C10 at a concrete scored one-row dataset. -/
theorem sub_score_ranges_witness :
    (∃ p, (scoreRow [sampleRecord "A" 7] (sampleRecord "A" 7)).pe_score =
        some p ∧ p ∈ ([1, 2, 5, 8, 10] : List ℤ)) ∧
    (∃ v, (scoreRow [sampleRecord "A" 7] (sampleRecord "A" 7)).volume_score =
        some v ∧ v ∈ ([2, 4, 5, 6, 8, 10] : List ℤ)) ∧
    (∃ m, (scoreRow [sampleRecord "A" 7] (sampleRecord "A" 7)).momentum_score =
        some m ∧ m ∈ ([2, 4, 5, 6, 8, 10] : List ℤ)) ∧
    (∃ f, (scoreRow [sampleRecord "A" 7] (sampleRecord "A" 7)).profit_score =
        some f ∧ 2 ≤ f ∧ f ≤ 10) ∧
    (∃ o, (scoreRow [sampleRecord "A" 7] (sampleRecord "A" 7)).overall_score =
        some o ∧ 7/4 ≤ o ∧ o ≤ 10) :=
  sub_score_ranges [sampleRecord "A" 7]
    (scoreRow [sampleRecord "A" 7] (sampleRecord "A" 7))
    (by simp [calculate_overall_score])

end StockAnalysis
